import Mathlib

/-!
Verification of the netroub trial-orchestration engine.

This file gives a shallow embedding, in Lean, of the parts of netroub that the
verified properties talk about:

* the subnet allocator (`src/pkg/network/emulation.go`):
  `calculateSubnetSize`, `extractLabIndex`, `generateSubnet`,
  `generateIPv6Subnet`;
* the parallel executor (`src/pkg/executor/executor.go`):
  `Executor.ExecuteWithProgress`;
* the scenario runner (`pkg/executor` runner file):
  `ScenarioRunner.RunWithResult`, `ScenarioRunner.executeEvents`;
* plan expansion (`src/pkg/executor/cleaner.go`):
  `Plan.ExpandScenarios`, `containsGlobChar`;
* the process-wide deploy/destroy lock (`src/pkg/network/controller.go`):
  `networkOpMu`, `NetworkController.Deploy` / `Destroy`;
* the per-event handlers (`src/pkg/events/executor.go`):
  `EventExecutor.execShell`, `EventExecutor.execCopy`.

Go machine integers are modelled as `Nat`/`Int` with explicit `% 2^32`
where 32-bit wraparound matters; fallible operations return `Except`;
external effects (the filesystem glob, the command runner, `mkdir`) are
oracles passed in as function arguments; goroutine interleavings are
quantified over explicitly (as processing orders / permutations, or as a
step relation on a system state).
-/

namespace Netroub

/-! ## Subnet allocator: `src/pkg/network/emulation.go` -/

/-- Usable host addresses of a `/p` IPv4 subnet: `(1 << (32-p)) - 2`
(network and broadcast address are excluded). -/
def usableAddrs (p : Nat) : Nat := 2 ^ (32 - p) - 2

/-- The countdown loop of `calculateSubnetSize`.  The Go loop runs
`for prefixLen := 30; prefixLen >= 16; prefixLen--`; here the fuel `i`
counts the prefix lengths still to be tried, the one tried at fuel `i + 1`
being `16 + i` (so fuel 15 tries 30, fuel 1 tries 16), and fuel 0 is the
fallthrough `return 16, (1 << 16) - 2`. -/
def subnetSizeLoop (required : Nat) : Nat → Nat
  | 0 => 16
  | i + 1 => if required ≤ usableAddrs (16 + i) then 16 + i else subnetSizeLoop required i

/-- Function `calculateSubnetSize` from `emulation.go`: minimum subnet (maximum
prefix length) providing `deviceCount + 1` usable addresses, scanning 30
down to 16, with a `/16` fallback.  Returns (prefix length, usable). -/
def calculateSubnetSize (deviceCount : Nat) : Nat × Nat :=
  let required := deviceCount + 1
  let plen := subnetSizeLoop required 15
  (plen, usableAddrs plen)

/-- Value of a decimal digit run, most significant first. -/
def digitsValue (ds : List Char) : Nat :=
  ds.foldl (fun acc c => acc * 10 + (c.toNat - '0'.toNat)) 0

/-- Model of `fmt.Sscanf(s, "%d", &num)` as used by `extractLabIndex`: skip leading
whitespace, optional sign, then the longest run of decimal digits.  When the
verb fails to match any digit, `num` keeps its zero value, so the result is 0
(note `-`/`+` with no digits also yields 0). -/
def scanDecimal (s : List Char) : Int :=
  let t := s.dropWhile (fun c => c.isWhitespace)
  match t with
  | '-' :: rest => - Int.ofNat (digitsValue (rest.takeWhile (fun c => c.isDigit)))
  | '+' :: rest => Int.ofNat (digitsValue (rest.takeWhile (fun c => c.isDigit)))
  | _ => Int.ofNat (digitsValue (t.takeWhile (fun c => c.isDigit)))

/-- Function `extractLabIndex` from `emulation.go`: the number parsed (via
`Sscanf "%d"`) from the substring after the last underscore; 0 when there is
no underscore, the underscore is the last character, or no number parses.
The suffix after the last `'_'` is computed as the reversal of the longest
underscore-free suffix of the reversed name. -/
def extractLabIndex (labName : String) : Int :=
  let chars := labName.toList
  let suffix := (chars.reverse.takeWhile (fun c => c ≠ '_')).reverse
  if '_' ∈ chars ∧ suffix ≠ [] then scanDecimal suffix else 0

/-- Go `uint32(i)` conversion from `int`: the low 32 bits, i.e. `i mod 2^32`. -/
def intToUInt32 (i : Int) : Nat := (i % (2 ^ 32 : Int)).toNat

/-- Base address `172.16.0.0` of the allocation block. -/
def baseIP : Nat := 0xAC100000

/-- Address `172.31.255.255`, the top of `172.16.0.0/12`. -/
def maxIP : Nat := 0xAC1FFFFF

/-- The numeric core of `generateSubnet` from `emulation.go`: the network
address and prefix length of the allocated subnet, or the allocation error.
All arithmetic is `uint32` arithmetic, hence the explicit `% 2^32`.
(`generateSubnet` below renders the result in dotted-decimal form.) -/
def generateSubnetParts (labName : String) (deviceCount : Nat) :
    Except String (Nat × Nat) :=
  let plen := (calculateSubnetSize deviceCount).1
  let labIndex := extractLabIndex labName
  let subnetSize := 2 ^ (32 - plen)
  let offset := intToUInt32 labIndex * subnetSize % 2 ^ 32
  let subnetIP := (baseIP + offset) % 2 ^ 32
  if maxIP < (subnetIP + subnetSize - 1) % 2 ^ 32 then
    .error ("subnet allocation exceeds 172.16.0.0/12 range: lab index " ++
      toString labIndex ++ " with /" ++ toString plen ++
      " subnets requires more address space (device count: " ++
      toString deviceCount ++ ")")
  else
    .ok (subnetIP, plen)

/-- Function `generateSubnet` from `emulation.go`: the allocated subnet in
`a.b.c.d/p` dotted-decimal form. -/
def generateSubnet (labName : String) (deviceCount : Nat) :
    Except String String :=
  match generateSubnetParts labName deviceCount with
  | .error e => .error e
  | .ok (subnetIP, plen) =>
    let a := subnetIP / 2 ^ 24 % 256
    let b := subnetIP / 2 ^ 16 % 256
    let c := subnetIP / 2 ^ 8 % 256
    let d := subnetIP % 256
    .ok (toString a ++ "." ++ toString b ++ "." ++ toString c ++ "." ++
      toString d ++ "/" ++ toString plen)

/-- Go `fmt.Sprintf("%x", i)` formatting of an `int`: lowercase hexadecimal, with a
leading minus sign for negative values. -/
def hexStr (i : Int) : String :=
  if i < 0 then "-" ++ String.mk (Nat.toDigits 16 i.natAbs)
  else String.mk (Nat.toDigits 16 i.toNat)

/-- Function `generateIPv6Subnet` from `emulation.go`:
`3fff:172:20:{hex labIndex}::/64`, failing exactly when the extracted lab
index exceeds 65535. -/
def generateIPv6Subnet (labName : String) : Except String String :=
  let labIndex := extractLabIndex labName
  if 65535 < labIndex then
    .error ("lab index " ++ toString labIndex ++
      " exceeds maximum for IPv6 subnet allocation (max 65535)")
  else
    .ok ("3fff:172:20:" ++ hexStr labIndex ++ "::/64")

/-- The inclusive IPv4 address interval `[subnetIP, subnetIP + 2^(32-plen) - 1]`
covered by a `/plen` subnet with network address `subnetIP`. -/
def ipv4SubnetRange (subnetIP plen : Nat) : Nat × Nat :=
  (subnetIP, subnetIP + 2 ^ (32 - plen) - 1)

/-- Numeric value of the first address of `3fff:172:20:{labIndex}::`. -/
def ipv6Base : Nat := 0x3fff * 2 ^ 112 + 0x172 * 2 ^ 96 + 0x20 * 2 ^ 80

/-- The inclusive 128-bit address interval covered by the `/64` subnet
`3fff:172:20:{labIndex}::/64`. -/
def ipv6SubnetRange (labIndex : Nat) : Nat × Nat :=
  (ipv6Base + labIndex * 2 ^ 64, ipv6Base + labIndex * 2 ^ 64 + (2 ^ 64 - 1))

/-- Membership in an inclusive address interval. -/
def inRange (r : Nat × Nat) (x : Nat) : Prop := r.1 ≤ x ∧ x ≤ r.2

/-- Two address intervals share no address. -/
def rangesDisjoint (r₁ r₂ : Nat × Nat) : Prop :=
  ∀ x, ¬(inRange r₁ x ∧ inRange r₂ x)

/-! ## Parallel executor: `src/pkg/executor/executor.go` -/

/-- Struct `Task` from `executor.go` (the `StartTime`/`Duration` bookkeeping
fields carry wall-clock values and are not modelled). -/
structure Task where
  scenarioPath : String
  runID : String
  yaml : Bool
deriving DecidableEq, Repr

/-- Struct `TaskRunnerResult` from `executor.go`: what
`TaskRunnerWithResult.RunWithResult` hands back for one task. -/
structure TaskRunnerResult where
  logDir : String
  error : Option String
deriving DecidableEq, Repr

/-- Struct `Result` from `executor.go`, restricted to its
order-insensitive fields. -/
structure Result where
  task : Task
  error : Option String
  logDir : String
deriving DecidableEq, Repr

/-- Model of `Executor.ExecuteWithProgress`.  The Go code fills `taskChan`
with the indices `0 .. len(tasks)-1`, `P` workers each repeatedly pull an
index `i`, run the task, and write `results[i]`.  Each index is pulled by
exactly one worker and processed exactly once; the only scheduling freedom
is the wall-clock order in which the (per-index) result writes happen.
`order` is that write order: an arbitrary sequence of indices covering every
slot (the theorems hypothesise that every index occurs in it).  `run` is the
task runner oracle (an arbitrary `TaskRunner`), so individual task failures
are arbitrary and never stop the fold. -/
def executeWithProgress (tasks : List Task) (run : Task → TaskRunnerResult)
    (order : List (Fin tasks.length)) : List (Option Result) :=
  order.foldl
    (fun results i =>
      results.set i.val
        (some { task := tasks.get i
                error := (run (tasks.get i)).error
                logDir := (run (tasks.get i)).logDir }))
    (List.replicate tasks.length none)

/-! ## Scenario runner: `ScenarioRunner.RunWithResult` -/

/-- Externally visible actions of one `RunWithResult` call that the
teardown property counts. -/
inductive RunAct
  | deploySucceeded
  | destroyCall
  | collectLogsCall
deriving DecidableEq, Repr

/-- Outcome oracle for the fallible steps of `ScenarioRunner.RunWithResult`:
scenario/device load, log-directory creation, `control.log` creation, host
validation, Docker-client creation, `NetworkController.Deploy`, per-host
`SetupTcpdump`, and the aggregated result of `executeEvents`.  The results
of the deferred `Destroy` and `collectLogs` calls are only logged by the
runner and never alter control flow, so they need no oracle fields. -/
structure RunOracle where
  loadOk : Bool
  mkdirOk : Bool
  createLogOk : Bool
  validateOk : Bool
  dockerOk : Bool
  deployOk : Bool
  tcpdumpOk : String → Bool
  eventsErr : Option String

/-- Model of `ScenarioRunner.RunWithResult`, as the pair (sequence of
deploy/teardown actions performed, returned error).  Each early `return`
site runs the `defer`red calls registered so far, in LIFO order, which is
why the trace at each return point lists exactly the registered defers:
after a successful `Deploy` only `Destroy` is registered; the `collectLogs`
defer is registered only after the `SetupTcpdump` loop finished without
error.  `noDeploy` mode is `scenario.Topo == ""`. -/
def runWithResult (o : RunOracle) (topo : String) (hosts : List String) :
    List RunAct × Option String :=
  if o.loadOk = false then ([], some "failed to load scenario") else
  if o.mkdirOk = false then ([], some "failed to create log directory") else
  if o.createLogOk = false then ([], some "failed to create control.log") else
  if topo = "" then
    -- noDeploy mode: no validation, no deploy/destroy, no log collection
    if o.dockerOk = false then ([], some "failed to create Docker client") else
    match o.eventsErr with
    | some e => ([], some ("event execution failed: " ++ e))
    | none => ([], none)
  else
    if o.validateOk = false then ([], some "host validation failed") else
    if o.dockerOk = false then ([], some "failed to create Docker client") else
    if o.deployOk = false then ([], some "failed to deploy network") else
    -- Deploy succeeded; `defer networkController.Destroy()` is now registered
    match hosts.find? (fun h => !(o.tcpdumpOk h)) with
    | some h =>
      ([.deploySucceeded, .destroyCall], some ("failed to setup tcpdump on " ++ h))
    | none =>
      -- `defer collectLogs` is now registered as well (LIFO: it runs first)
      match o.eventsErr with
      | some e =>
        ([.deploySucceeded, .collectLogsCall, .destroyCall],
          some ("event execution failed: " ++ e))
      | none => ([.deploySucceeded, .collectLogsCall, .destroyCall], none)

/-! ## Event scheduler: `ScenarioRunner.executeEvents` -/

/-- Begin offset of one event: the empty string stands for offset 0 without
consulting the parser; any other string goes through the
`time.ParseDuration` oracle `parseDur` (`none` models a parse error). -/
def beginTimeOf (parseDur : String → Option Nat) (s : String) : Option Nat :=
  if s = "" then some 0 else parseDur s

/-- The begin-time parsing loop at the top of `executeEvents`: parse every
event's `BeginTime` in index order, returning at the first failure with an
error naming the event index, before any event is launched. -/
def parseBeginTimes (parseDur : String → Option Nat) :
    List String → Nat → Except String (List Nat)
  | [], _ => .ok []
  | s :: rest, i =>
    match beginTimeOf parseDur s with
    | none => .error ("invalid begin time for event " ++ toString i)
    | some d =>
      match parseBeginTimes parseDur rest (i + 1) with
      | .error e => .error e
      | .ok ds => .ok (d :: ds)

/-- The receive loop of `executeEvents`: one receive per launched event, in
completion order `order`; every `non-nil` error overwrites `lastError`. -/
def lastErrorFold (errOf : Nat → Option String) (order : List Nat) : Option String :=
  order.foldl
    (fun lastError i =>
      match errOf i with
      | some e => some e
      | none => lastError)
    none

/-- Model of `ScenarioRunner.executeEvents` for a scenario whose events have
begin-time strings `eventBegins`.  `errOf i` is the oracle for
`executor.Execute(i)` (the event goroutine body after its sleep), and
`order` is the order in which event completions are received from the
`done` channel — the scheduling freedom of the goroutines.  The first
component is the list of events whose completions were observed before
returning; on a parse error no event is launched. -/
def executeEvents (parseDur : String → Option Nat) (eventBegins : List String)
    (errOf : Nat → Option String) (order : List Nat) :
    List Nat × Option String :=
  match parseBeginTimes parseDur eventBegins 0 with
  | .error e => ([], some e)
  | .ok _ => (order, lastErrorFold errOf order)

/-! ## Plan expansion: `src/pkg/executor/cleaner.go` -/

/-- Struct `ScenarioEntry` from `cleaner.go`: a file-path pattern, a repeat
count and the YAML format flag. -/
structure ScenarioEntry where
  pattern : String
  repeatCount : Nat
  yaml : Bool
deriving DecidableEq, Repr

/-- Function `containsGlobChar` from `cleaner.go`. -/
def containsGlobChar (pattern : String) : Bool :=
  pattern.toList.any (fun c => c == '*' || c == '?' || c == '[')

/-- Go `filepath.IsAbs` on Unix: the path starts with a slash. -/
def isAbsPath (p : String) : Bool :=
  match p.toList with
  | '/' :: _ => true
  | _ => false

/-- Go `filepath.Join(baseDir, p)`, without the lexical path cleaning Join
performs (the joined string is only used as the key handed to the glob
oracle, so cleaning is immaterial here). -/
def joinPath (baseDir p : String) : String := baseDir ++ "/" ++ p

/-- The pattern actually handed to `filepath.Glob`: made absolute relative
to the plan's base directory when relative. -/
def absPattern (baseDir pattern : String) : String :=
  if isAbsPath pattern then pattern else joinPath baseDir pattern

/-- Model of `Plan.ExpandScenarios`.  `glob` is the filesystem oracle for
`filepath.Glob` on a well-formed pattern (`ErrBadPattern`, which Go raises
only for malformed patterns and independently of the filesystem, is not
modelled).  Each entry: no match and no glob metacharacter keeps the entry
as a literal path; no match with a metacharacter fails the whole expansion;
otherwise each matched file becomes one entry inheriting the repeat count
and format flag. -/
def expandScenarios (glob : String → List String) (baseDir : String) :
    List ScenarioEntry → Except String (List ScenarioEntry)
  | [] => .ok []
  | entry :: rest =>
    let ms := glob (absPattern baseDir entry.pattern)
    if ms = [] then
      if containsGlobChar entry.pattern = false then
        match expandScenarios glob baseDir rest with
        | .error e => .error e
        | .ok tail => .ok (entry :: tail)
      else
        .error ("no files match pattern " ++ entry.pattern)
    else
      match expandScenarios glob baseDir rest with
      | .error e => .error e
      | .ok tail =>
        .ok ((ms.map fun m =>
          { pattern := m, repeatCount := entry.repeatCount, yaml := entry.yaml }) ++ tail)

/-- The expansion of a single entry on the success path (used to state what
`expandScenarios` returns when no entry fails). -/
def expandedEntry (glob : String → List String) (baseDir : String)
    (entry : ScenarioEntry) : List ScenarioEntry :=
  let ms := glob (absPattern baseDir entry.pattern)
  if ms = [] then [entry]
  else ms.map fun m => { pattern := m, repeatCount := entry.repeatCount, yaml := entry.yaml }

/-- An entry that makes `expandScenarios` fail: it has a glob metacharacter
and matches no file. -/
def offendingEntry (glob : String → List String) (baseDir : String)
    (entry : ScenarioEntry) : Prop :=
  containsGlobChar entry.pattern = true ∧ glob (absPattern baseDir entry.pattern) = []

/-! ## Deploy/destroy serialization: `src/pkg/network/controller.go`

`networkOpMu` is one process-wide `sync.Mutex`.  `NetworkController.Deploy`
generates both subnets (possibly returning an allocation error without ever
touching the lock), then locks `networkOpMu`, runs the external containerlab
deploy call, and unlocks (via `defer`) as soon as the call returns;
`Destroy` does the same around the external destroy call.  Event execution,
telemetry and log collection never touch `networkOpMu`.  The model is a
step relation over the interleaved execution of any number of such
threads. -/

/-- Control location of one `Deploy()` or `Destroy()` invocation with
respect to `networkOpMu` and the external containerlab call. -/
inductive NetPhase
  | start        -- before subnet generation (Destroy has no such step and starts at `ready`)
  | failedAlloc  -- returned with an allocation error, never took the lock
  | ready        -- about to call `networkOpMu.Lock()`
  | inCall       -- holding `networkOpMu`, external containerlab call in flight
  | finished     -- `networkOpMu.Unlock()` ran, call returned
deriving DecidableEq, Repr

/-- One concurrent unit of work: either a deploy-or-destroy invocation, or
any of the lock-free activities of a trial (event execution, telemetry,
log collection), which only has "not finished"/"finished" states because it
never interacts with `networkOpMu`. -/
inductive TrialThread
  | netOp (phase : NetPhase)
  | work (finished : Bool)
deriving DecidableEq, Repr

/-- Process state: who holds `networkOpMu` (if anyone), and every thread's
control location. -/
structure LockSys where
  lockHeld : Option Nat
  threads : List TrialThread
deriving DecidableEq, Repr

/-- Interleaving semantics of the threads against the mutex: `acquire`
requires the mutex to be free and takes it, `release` gives it back, subnet
generation (`allocFail`/`allocOk`) and all `work` steps neither consult nor
modify the mutex. -/
inductive LockStep : LockSys → LockSys → Prop
  | allocFail (s : LockSys) (i : Nat) :
      s.threads[i]? = some (.netOp .start) →
      LockStep s { lockHeld := s.lockHeld, threads := s.threads.set i (.netOp .failedAlloc) }
  | allocOk (s : LockSys) (i : Nat) :
      s.threads[i]? = some (.netOp .start) →
      LockStep s { lockHeld := s.lockHeld, threads := s.threads.set i (.netOp .ready) }
  | acquire (s : LockSys) (i : Nat) :
      s.threads[i]? = some (.netOp .ready) →
      s.lockHeld = none →
      LockStep s { lockHeld := some i, threads := s.threads.set i (.netOp .inCall) }
  | release (s : LockSys) (i : Nat) :
      s.threads[i]? = some (.netOp .inCall) →
      s.lockHeld = some i →
      LockStep s { lockHeld := none, threads := s.threads.set i (.netOp .finished) }
  | workStep (s : LockSys) (i : Nat) :
      s.threads[i]? = some (.work false) →
      LockStep s { lockHeld := s.lockHeld, threads := s.threads.set i (.work true) }

/-- Initial states: the mutex is free and no thread has started running. -/
def LockInit (s : LockSys) : Prop :=
  s.lockHeld = none ∧ ∀ t ∈ s.threads, t = .netOp .start ∨ t = .work false

/-- Reachability under the interleaving semantics. -/
def LockReachable (s₀ s : LockSys) : Prop := Relation.ReflTransGen LockStep s₀ s

/-- The mutex invariant: a thread whose external call is in flight is the
mutex holder. -/
def LockInv (s : LockSys) : Prop :=
  ∀ i, s.threads[i]? = some (.netOp .inCall) → s.lockHeld = some i

/-! ## Event handlers: `src/pkg/events/executor.go` -/

/-- Struct `FileCopy` from the scenario model. -/
structure FileCopy where
  src : String
  dst : String
  owner : String
  mode : String
deriving DecidableEq, Repr

/-- Method `Event.GetHosts` from the scenario model: the single `host`
field (when non-empty) followed by the `hosts` list. -/
def getHosts (host : String) (hosts : List String) : List String :=
  (if host = "" then [] else [host]) ++ hosts

/-- Method `ClabHostName`: the containerlab container name of a host. -/
def clabHostName (labName host : String) : String :=
  "clab-" ++ labName ++ "-" ++ host

/-- A single-quote character (written via its code point to keep string
literals quote-free). -/
def squoteStr : String := String.mk [Char.ofNat 39]

/-- A double-quote character. -/
def dquoteStr : String := String.mk [Char.ofNat 34]

/-- The quote-escaping of `execShell`:
`strings.ReplaceAll(shellCommand, squote, squote dquote squote dquote squote)`,
implemented character by character. -/
def escapeQuotes : List Char → List Char
  | [] => []
  | c :: rest =>
    if c = Char.ofNat 39 then
      (squoteStr ++ dquoteStr ++ squoteStr ++ dquoteStr ++ squoteStr).toList ++
        escapeQuotes rest
    else c :: escapeQuotes rest

/-- Last path component, as in `filepath.Base` restricted to the paths the
copy handlers build (trailing-slash stripping and cleaning are not
modelled; the result is only interpolated into oracle arguments). -/
def baseName (p : String) : String :=
  String.mk (p.toList.reverse.takeWhile (fun c => c ≠ '/')).reverse

/-- Leading directories, as in `filepath.Dir` restricted likewise. -/
def dirName (p : String) : String :=
  let chars := p.toList
  if '/' ∈ chars then
    let kept := ((chars.reverse.dropWhile (fun c => c ≠ '/')).drop 1).reverse
    if kept = [] then "/" else String.mk kept
  else "."

/-- Whether a Go path string ends in a slash (`strings.HasSuffix(s, "/")`). -/
def endsWithSlash (p : String) : Bool := p.toList.getLast? == some '/'

/-- Method `EventExecutor.execShell`: for every target host and every shell
command, build the quoted `docker exec` line and run it through the command
runner oracle `run`; a failed command is only collected as a warning
(`logrus.Warnf`), and the handler returns `nil` unconditionally.  Result:
(warnings logged, returned error). -/
def execShell (labName host : String) (hosts : List String)
    (shellPath : String) (shellCommands : List String)
    (run : String → List String → Except String String) :
    List String × Option String :=
  let shell := if shellPath = "" then "/bin/sh" else shellPath
  let warnings := (getHosts host hosts).flatMap fun h =>
    let containerName := clabHostName labName h
    shellCommands.filterMap fun shellCommand =>
      let escapedCommand := String.mk (escapeQuotes shellCommand.toList)
      let input := "docker exec " ++ containerName ++ " " ++ shell ++ " -c " ++
        squoteStr ++ escapedCommand ++ squoteStr
      match run "sh" ["-c", input] with
      | .ok _ => none
      | .error err => some ("Error while running " ++ shellCommand ++ ": " ++ err)
  (warnings, none)

/-- Method `copyToContainer`: `docker cp` to the container, then optional
`chown`, then optional `chmod`, failing at the first failing step. -/
def copyToContainer (run : String → List String → Except String String)
    (containerName : String) (fc : FileCopy) : Except String Unit :=
  match run "docker" ["cp", fc.src, containerName ++ ":" ++ fc.dst] with
  | .error err =>
    .error ("docker cp from " ++ fc.src ++ " to " ++ containerName ++ ":" ++
      fc.dst ++ " failed: " ++ err)
  | .ok _ =>
    let dstPath := if endsWithSlash fc.dst then fc.dst ++ baseName fc.src else fc.dst
    match (if fc.owner = "" then .ok ""
           else run "docker" ["exec", containerName, "chown", fc.owner, dstPath]) with
    | .error err => .error ("chown failed: " ++ err)
    | .ok _ =>
      match (if fc.mode = "" then .ok ""
             else run "docker" ["exec", containerName, "chmod", fc.mode, dstPath]) with
      | .error err => .error ("chmod failed: " ++ err)
      | .ok _ => .ok ()

/-- Method `copyFromContainer`: ensure the destination directory exists
(`os.MkdirAll`, modelled by the `mkdirAll` oracle), `docker cp` out of the
container, then optional host-side `chown` and `chmod`. -/
def copyFromContainer (run : String → List String → Except String String)
    (mkdirAll : String → Except String Unit)
    (containerName : String) (fc : FileCopy) : Except String Unit :=
  let dstDir := if endsWithSlash fc.dst then fc.dst else dirName fc.dst
  match mkdirAll dstDir with
  | .error err =>
    .error ("failed to create destination directory " ++ dstDir ++ ": " ++ err)
  | .ok _ =>
    match run "docker" ["cp", containerName ++ ":" ++ fc.src, fc.dst] with
    | .error err =>
      .error ("docker cp from " ++ containerName ++ ":" ++ fc.src ++ " to " ++
        fc.dst ++ " failed: " ++ err)
    | .ok _ =>
      let dstPath := if endsWithSlash fc.dst then fc.dst ++ baseName fc.src else fc.dst
      match (if fc.owner = "" then .ok "" else run "chown" [fc.owner, dstPath]) with
      | .error err => .error ("chown failed: " ++ err)
      | .ok _ =>
        match (if fc.mode = "" then .ok "" else run "chmod" [fc.mode, dstPath]) with
        | .error err => .error ("chmod failed: " ++ err)
        | .ok _ => .ok ()

/-- Method `EventExecutor.execCopy`: for every target host, attempt every
`toContainer` copy and then every `fromContainer` copy; each failed copy is
only collected as a warning, and the handler returns `nil` unconditionally.
Result: (warnings logged, returned error). -/
def execCopy (labName host : String) (hosts : List String)
    (toContainer fromContainer : List FileCopy)
    (run : String → List String → Except String String)
    (mkdirAll : String → Except String Unit) :
    List String × Option String :=
  let warnings := (getHosts host hosts).flatMap fun h =>
    let containerName := clabHostName labName h
    (toContainer.filterMap fun fc =>
      match copyToContainer run containerName fc with
      | .error e => some ("Error copying to container " ++ containerName ++ ": " ++ e)
      | .ok _ => none) ++
    (fromContainer.filterMap fun fc =>
      match copyFromContainer run mkdirAll containerName fc with
      | .error e => some ("Error copying from container " ++ containerName ++ ": " ++ e)
      | .ok _ => none)
  (warnings, none)

/-! ## Helper lemmas: the `calculateSubnetSize` scan -/

lemma subnetSizeLoop_ge (required : Nat) : ∀ i, 16 ≤ subnetSizeLoop required i
  | 0 => Nat.le_refl 16
  | i + 1 => by
    unfold subnetSizeLoop
    split
    · omega
    · exact subnetSizeLoop_ge required i

lemma subnetSizeLoop_le (required : Nat) :
    ∀ i, subnetSizeLoop required i ≤ max 16 (15 + i)
  | 0 => by simp [subnetSizeLoop]
  | i + 1 => by
    unfold subnetSizeLoop
    split
    · omega
    · have := subnetSizeLoop_le required i
      omega

lemma subnetSizeLoop_sat (required : Nat) :
    ∀ i, (∃ q, 16 ≤ q ∧ q ≤ 15 + i ∧ required ≤ usableAddrs q) →
      required ≤ usableAddrs (subnetSizeLoop required i) ∧
      ∀ q, 16 ≤ q → q ≤ 15 + i → required ≤ usableAddrs q →
        q ≤ subnetSizeLoop required i
  | 0, h => absurd h (by rintro ⟨q, hq1, hq2, -⟩; omega)
  | i + 1, h => by
    unfold subnetSizeLoop
    by_cases hc : required ≤ usableAddrs (16 + i)
    · rw [if_pos hc]
      exact ⟨hc, fun q h1 h2 _ => by omega⟩
    · rw [if_neg hc]
      have hnarrow : ∀ q, 16 ≤ q → q ≤ 15 + (i + 1) → required ≤ usableAddrs q →
          q ≤ 15 + i := by
        intro q h1 h2 h3
        rcases Nat.lt_or_ge q (16 + i) with h' | h'
        · omega
        · exfalso
          have hq : q = 16 + i := by omega
          rw [hq] at h3
          exact hc h3
      have hex : ∃ q, 16 ≤ q ∧ q ≤ 15 + i ∧ required ≤ usableAddrs q := by
        obtain ⟨q, hq1, hq2, hq3⟩ := h
        exact ⟨q, hq1, hnarrow q hq1 hq2 hq3, hq3⟩
      obtain ⟨h1, h2⟩ := subnetSizeLoop_sat required i hex
      exact ⟨h1, fun q hq1 hq2 hq3 => h2 q hq1 (hnarrow q hq1 hq2 hq3) hq3⟩

lemma subnetSizeLoop_fallback (required : Nat) :
    ∀ i, (∀ q, 16 ≤ q → q ≤ 15 + i → usableAddrs q < required) →
      subnetSizeLoop required i = 16
  | 0, _ => rfl
  | i + 1, h => by
    unfold subnetSizeLoop
    rw [if_neg (by have := h (16 + i) (by omega) (by omega); omega)]
    exact subnetSizeLoop_fallback required i (fun q h1 h2 => h q h1 (by omega))

lemma calculateSubnetSize_fst (n : Nat) :
    (calculateSubnetSize n).1 = subnetSizeLoop (n + 1) 15 := rfl

lemma plen_bounds (n : Nat) :
    16 ≤ (calculateSubnetSize n).1 ∧ (calculateSubnetSize n).1 ≤ 30 := by
  rw [calculateSubnetSize_fst]
  refine ⟨subnetSizeLoop_ge (n + 1) 15, ?_⟩
  have := subnetSizeLoop_le (n + 1) 15
  omega

/-! ## C3: the prefix computed by `calculateSubnetSize` -/

/-- C3, counterexample to the claim as stated.  The claim says the returned
prefix `p` is the *smallest* prefix in `[16, 30]` with
`2^(32-p) - 2 ≥ n + 1`.  At `n = 1` the code returns `p = 30`, yet `q = 16`
also satisfies the usable-address condition and `30 ≤ 16` is false: the
scan from 30 down to 16 stops at the *largest* satisfying prefix (the
smallest subnet), not the smallest. -/
theorem calculateSubnetSize_not_smallest :
    (calculateSubnetSize 1).1 = 30 ∧ (1 + 1 ≤ usableAddrs 16) ∧
    ¬(∀ q, 16 ≤ q → q ≤ 30 → 1 + 1 ≤ usableAddrs q → (calculateSubnetSize 1).1 ≤ q) := by
  refine ⟨rfl, by decide, fun h => ?_⟩
  have h16 := h 16 (by omega) (by omega) (by decide)
  rw [show (calculateSubnetSize 1).1 = 30 from rfl] at h16
  omega

/-- C3, amended: for every device count `n ≥ 0`, `calculateSubnetSize n`
returns a prefix `p ∈ [16, 30]`; when some prefix in `[16, 30]` provides
`2^(32-p) - 2 ≥ n + 1` usable addresses, `p` satisfies that bound and is
the **largest** such prefix (i.e. the minimal sufficient subnet); when no
prefix in `[16, 30]` suffices, the result is the `/16` fallback. -/
theorem calculateSubnetSize_correct (n : Nat) :
    16 ≤ (calculateSubnetSize n).1 ∧ (calculateSubnetSize n).1 ≤ 30 ∧
    ((∃ q, 16 ≤ q ∧ q ≤ 30 ∧ n + 1 ≤ usableAddrs q) →
      n + 1 ≤ usableAddrs (calculateSubnetSize n).1 ∧
      ∀ q, 16 ≤ q → q ≤ 30 → n + 1 ≤ usableAddrs q → q ≤ (calculateSubnetSize n).1) ∧
    ((∀ q, 16 ≤ q → q ≤ 30 → usableAddrs q < n + 1) → (calculateSubnetSize n).1 = 16) := by
  obtain ⟨hge, hle⟩ := plen_bounds n
  refine ⟨hge, hle, ?_, ?_⟩
  · intro hex
    rw [calculateSubnetSize_fst] at *
    have := subnetSizeLoop_sat (n + 1) 15 (by obtain ⟨q, a, b, c⟩ := hex; exact ⟨q, a, by omega, c⟩)
    exact ⟨this.1, fun q h1 h2 h3 => this.2 q h1 (by omega) h3⟩
  · intro hnone
    rw [calculateSubnetSize_fst]
    exact subnetSizeLoop_fallback (n + 1) 15 (fun q h1 h2 => hnone q h1 (by omega))

/-- Witness for the implication parts of `calculateSubnetSize_correct`,
discharged at the concrete device count 1 (prefix 30 exists and works). -/
theorem calculateSubnetSize_correct_witness :
    (1 + 1 ≤ usableAddrs (calculateSubnetSize 1).1) ∧ 16 ≤ (calculateSubnetSize 1).1 :=
  ⟨((calculateSubnetSize_correct 1).2.2.1 ⟨30, by omega, by omega, by decide⟩).1,
    (calculateSubnetSize_correct 1).1⟩

/-! ## C8: concrete allocator outputs -/

/-- C8: the three concrete allocations from the spec, and
`generateIPv6Subnet` fails exactly when the extracted lab index exceeds
65535. -/
theorem allocator_concrete_outputs :
    generateSubnet "baseline_001" 16 = .ok "172.16.0.32/27" ∧
    generateSubnet "bgp_features" 16 = .ok "172.16.0.0/27" ∧
    generateIPv6Subnet "baseline_010" = .ok "3fff:172:20:a::/64" ∧
    ∀ labName : String,
      (∃ e, generateIPv6Subnet labName = .error e) ↔ 65535 < extractLabIndex labName := by
  refine ⟨rfl, rfl, rfl, fun labName => ?_⟩
  unfold generateIPv6Subnet
  by_cases h : 65535 < extractLabIndex labName
  · rw [if_pos h]
    simp [h]
  · rw [if_neg h]
    simp [h]

/-! ## C2: the `172.16.0.0/12` ceiling check against `uint32` overflow -/

/-- C2: the code violates the claim.  With lab name `lab_134217728` and 16
devices the subnet size is `2^5 = 32`, so `labIndex * subnetSize` equals
`2^32` mathematically — every address of the allocated subnet lies beyond
`172.31.255.255` and the claim demands an allocation error — yet the
`uint32` product wraps to 0 and `generateSubnet` happily returns
`172.16.0.0/27`, the very subnet of lab index 0. -/
theorem generateSubnet_overflow_defeats_range_check :
    extractLabIndex "lab_134217728" = 134217728 ∧
    (calculateSubnetSize 16).1 = 27 ∧
    maxIP < baseIP + 134217728 * 2 ^ (32 - 27) ∧
    generateSubnet "lab_134217728" 16 = .ok "172.16.0.0/27" :=
  ⟨rfl, rfl, by norm_num [maxIP, baseIP], rfl⟩

/-! ## C1: disjointness of the allocated subnets -/

lemma inRange_def (r : Nat × Nat) (x : Nat) : inRange r x ↔ r.1 ≤ x ∧ x ≤ r.2 :=
  Iff.rfl

lemma intToUInt32_natCast (i : Nat) (h : i < 2 ^ 32) : intToUInt32 (i : Int) = i := by
  unfold intToUInt32
  rw [Int.emod_eq_of_lt (by positivity) (by exact_mod_cast h)]
  exact Int.toNat_natCast i

/-- When the whole allocated block fits under the `172.16.0.0/12` ceiling
(no `uint32` wraparound), `generateSubnetParts` succeeds and returns the
exact network address `baseIP + labIndex * subnetSize`. -/
lemma generateSubnetParts_ok (L : String) (n i : Nat)
    (h : extractLabIndex L = (i : Int))
    (hb : (i + 1) * 2 ^ (32 - (calculateSubnetSize n).1) ≤ 2 ^ 20) :
    generateSubnetParts L n =
      .ok (baseIP + i * 2 ^ (32 - (calculateSubnetSize n).1), (calculateSubnetSize n).1) := by
  set s := 2 ^ (32 - (calculateSubnetSize n).1) with hsdef
  have hs1 : 1 ≤ s := Nat.one_le_two_pow
  have hmul : i * s + s = (i + 1) * s := by ring
  have h20 : (2 : Nat) ^ 20 = 1048576 := by norm_num
  have h32 : (2 : Nat) ^ 32 = 4294967296 := by norm_num
  have hbase : baseIP = 2886729728 := by norm_num [baseIP]
  have hmax : maxIP = 2887778303 := by norm_num [maxIP]
  have hilt : i < 2 ^ 32 := by
    have hi1 : i + 1 ≤ (i + 1) * s := Nat.le_mul_of_pos_right (i + 1) (by omega)
    omega
  have e1 : i * s % 2 ^ 32 = i * s := Nat.mod_eq_of_lt (by omega)
  have e2 : (baseIP + i * s) % 2 ^ 32 = baseIP + i * s := Nat.mod_eq_of_lt (by omega)
  have e3 : (baseIP + i * s + s - 1) % 2 ^ 32 = baseIP + i * s + s - 1 :=
    Nat.mod_eq_of_lt (by omega)
  simp only [generateSubnetParts, h, ← hsdef, intToUInt32_natCast i hilt, e1, e2, e3]
  rw [if_neg (by omega)]

/-- Distinct lab indices get disjoint IPv4 blocks (the blocks are
`subnetSize`-aligned slices of `172.16.0.0/12`). -/
lemma ipv4_blocks_disjoint (p i j : Nat) (hij : i ≠ j) :
    rangesDisjoint (ipv4SubnetRange (baseIP + i * 2 ^ (32 - p)) p)
      (ipv4SubnetRange (baseIP + j * 2 ^ (32 - p)) p) := by
  intro x hx
  simp only [ipv4SubnetRange, inRange_def] at hx
  obtain ⟨⟨ha1, ha2⟩, hb1, hb2⟩ := hx
  set s := 2 ^ (32 - p) with hsdef
  have hs1 : 1 ≤ s := Nat.one_le_two_pow
  have ei : i * s + s = (i + 1) * s := by ring
  have ej : j * s + s = (j + 1) * s := by ring
  rcases Nat.lt_or_ge i j with hlt | hge
  · have := mul_le_mul_right' (show i + 1 ≤ j from hlt) s
    omega
  · have hjl : j < i := by omega
    have := mul_le_mul_right' (show j + 1 ≤ i from hjl) s
    omega

/-- Distinct lab indices get disjoint IPv6 `/64` blocks. -/
lemma ipv6_blocks_disjoint (i j : Nat) (hij : i ≠ j) :
    rangesDisjoint (ipv6SubnetRange i) (ipv6SubnetRange j) := by
  intro x hx
  simp only [ipv6SubnetRange, inRange_def] at hx
  obtain ⟨⟨ha1, ha2⟩, hb1, hb2⟩ := hx
  set s := (2 : Nat) ^ 64 with hsdef
  have hs1 : 1 ≤ s := Nat.one_le_two_pow
  have ei : i * s + (s - 1) + 1 = (i + 1) * s := by
    have : i * s + s = (i + 1) * s := by ring
    omega
  have ej : j * s + (s - 1) + 1 = (j + 1) * s := by
    have : j * s + s = (j + 1) * s := by ring
    omega
  rcases Nat.lt_or_ge i j with hlt | hge
  · have := mul_le_mul_right' (show i + 1 ≤ j from hlt) s
    omega
  · have hjl : j < i := by omega
    have := mul_le_mul_right' (show j + 1 ≤ i from hjl) s
    omega

lemma generateIPv6Subnet_ok (L : String) (i : Nat)
    (h : extractLabIndex L = (i : Int)) (hle : i ≤ 65535) :
    generateIPv6Subnet L = .ok ("3fff:172:20:" ++ hexStr (i : Int) ++ "::/64") := by
  unfold generateIPv6Subnet
  rw [h, if_neg (by exact_mod_cast Nat.not_lt.mpr hle)]

/-- C1, counterexample to the claim as stated.  The lab identities `test`
and `test_abc` are distinct, but both extract lab index 0 (no numeric
suffix after the last underscore), so with equal device count 16 both are
allocated the *same* IPv4 subnet `172.16.0.0/27` and the same IPv6 subnet
— identical, hence not disjoint, address ranges. -/
theorem subnet_disjointness_counterexample :
    "test" ≠ "test_abc" ∧
    extractLabIndex "test" = 0 ∧ extractLabIndex "test_abc" = 0 ∧
    generateSubnetParts "test" 16 = .ok (baseIP, 27) ∧
    generateSubnetParts "test_abc" 16 = .ok (baseIP, 27) ∧
    ¬ rangesDisjoint (ipv4SubnetRange baseIP 27) (ipv4SubnetRange baseIP 27) ∧
    generateIPv6Subnet "test" = .ok "3fff:172:20:0::/64" ∧
    generateIPv6Subnet "test_abc" = .ok "3fff:172:20:0::/64" ∧
    ¬ rangesDisjoint (ipv6SubnetRange 0) (ipv6SubnetRange 0) := by
  refine ⟨by decide, rfl, rfl, rfl, rfl, ?_, rfl, rfl, ?_⟩
  · intro hdisj
    refine hdisj baseIP ⟨?_, ?_⟩ <;>
      exact ⟨Nat.le_refl _, by simp [ipv4SubnetRange]⟩
  · intro hdisj
    refine hdisj ipv6Base ⟨?_, ?_⟩ <;>
      exact ⟨by simp [ipv6SubnetRange], by simp [ipv6SubnetRange]⟩

/-- C1, amended: two lab identities with *distinct extracted lab indices*
(rather than merely distinct strings), equal device count, and allocations
that fit inside `172.16.0.0/12` without `uint32` overflow (each block end
`(index+1) * subnetSize` stays within the `2^20` addresses of the block;
necessary, since overflowing products wrap and can collide, cf. the C2
result) receive disjoint IPv4 subnets; and with both indices within the
IPv6 field capacity 65535, their IPv6 `/64` subnets are disjoint as well. -/
theorem subnet_disjointness_amended (L1 L2 : String) (n i1 i2 : Nat)
    (h1 : extractLabIndex L1 = (i1 : Int)) (h2 : extractLabIndex L2 = (i2 : Int))
    (hne : i1 ≠ i2)
    (hb1 : (i1 + 1) * 2 ^ (32 - (calculateSubnetSize n).1) ≤ 2 ^ 20)
    (hb2 : (i2 + 1) * 2 ^ (32 - (calculateSubnetSize n).1) ≤ 2 ^ 20)
    (h61 : i1 ≤ 65535) (h62 : i2 ≤ 65535) :
    (generateSubnetParts L1 n =
      .ok (baseIP + i1 * 2 ^ (32 - (calculateSubnetSize n).1), (calculateSubnetSize n).1) ∧
     generateSubnetParts L2 n =
      .ok (baseIP + i2 * 2 ^ (32 - (calculateSubnetSize n).1), (calculateSubnetSize n).1) ∧
     rangesDisjoint
       (ipv4SubnetRange (baseIP + i1 * 2 ^ (32 - (calculateSubnetSize n).1))
         (calculateSubnetSize n).1)
       (ipv4SubnetRange (baseIP + i2 * 2 ^ (32 - (calculateSubnetSize n).1))
         (calculateSubnetSize n).1)) ∧
    (generateIPv6Subnet L1 = .ok ("3fff:172:20:" ++ hexStr (i1 : Int) ++ "::/64") ∧
     generateIPv6Subnet L2 = .ok ("3fff:172:20:" ++ hexStr (i2 : Int) ++ "::/64") ∧
     rangesDisjoint (ipv6SubnetRange i1) (ipv6SubnetRange i2)) :=
  ⟨⟨generateSubnetParts_ok L1 n i1 h1 hb1, generateSubnetParts_ok L2 n i2 h2 hb2,
    ipv4_blocks_disjoint (calculateSubnetSize n).1 i1 i2 hne⟩,
   generateIPv6Subnet_ok L1 i1 h1 h61, generateIPv6Subnet_ok L2 i2 h2 h62,
   ipv6_blocks_disjoint i1 i2 hne⟩

/-- Witness for `subnet_disjointness_amended` at the concrete identities
`lab_001` and `lab_002` with device count 16. -/
theorem subnet_disjointness_amended_witness :
    generateSubnetParts "lab_001" 16 =
      .ok (baseIP + 1 * 2 ^ (32 - (calculateSubnetSize 16).1), (calculateSubnetSize 16).1) ∧
    rangesDisjoint (ipv6SubnetRange 1) (ipv6SubnetRange 2) :=
  ⟨(subnet_disjointness_amended "lab_001" "lab_002" 16 1 2 rfl rfl (by decide)
      (by decide) (by decide) (by decide) (by decide)).1.1,
   (subnet_disjointness_amended "lab_001" "lab_002" 16 1 2 rfl rfl (by decide)
      (by decide) (by decide) (by decide) (by decide)).2.2.2⟩

/-! ## C4: the result list of the parallel executor -/

lemma foldl_set_preserves_length {α β : Type} (f : β → Nat) (g : β → α) :
    ∀ (l : List β) (acc : List α),
      (l.foldl (fun a b => a.set (f b) (g b)) acc).length = acc.length
  | [], _ => rfl
  | b :: l, acc => by
    rw [List.foldl_cons, foldl_set_preserves_length f g l]
    exact List.length_set acc (f b) (g b)

lemma foldl_set_untouched {α β : Type} (f : β → Nat) (g : β → α) :
    ∀ (l : List β) (acc : List α) (i : Nat), (∀ b ∈ l, f b ≠ i) →
      (l.foldl (fun a b => a.set (f b) (g b)) acc)[i]? = acc[i]?
  | [], _, _, _ => rfl
  | b :: l, acc, i, h => by
    rw [List.foldl_cons,
      foldl_set_untouched f g l _ i (fun c hc => h c (List.mem_cons_of_mem _ hc))]
    exact List.getElem?_set_ne (h b (List.mem_cons_self _ _))

lemma foldl_set_covered {α β : Type} (f : β → Nat) (g : β → α)
    (hinj : ∀ b c, f b = f c → b = c) :
    ∀ (l : List β) (acc : List α) (b : β), b ∈ l → f b < acc.length →
      (l.foldl (fun a c => a.set (f c) (g c)) acc)[f b]? = some (g b)
  | [], _, b, hb, _ => absurd hb (List.not_mem_nil b)
  | c :: l, acc, b, hb, hlen => by
    rw [List.foldl_cons]
    by_cases hbl : b ∈ l
    · exact foldl_set_covered f g hinj l _ b hbl
        (by rw [List.length_set]; exact hlen)
    · have hbc : b = c := by
        rcases List.mem_cons.mp hb with h | h
        · exact h
        · exact absurd h hbl
      subst hbc
      rw [foldl_set_untouched f g l _ (f b)
        (fun c hc hfc => hbl (hinj c b hfc ▸ hc))]
      exact List.getElem?_set_self hlen

/-- C4: whatever the worker count, assignment of queue indices to workers,
and completion order (all abstracted by the write order `order`, required
only to reach every queue index), `ExecuteWithProgress` fills a result list
of length `len(tasks)` whose slot `i` holds a `Result` with
`Results[i].Task = tasks[i]` and the runner's outcome for that very task —
including when any number of tasks fail, since the runner oracle is
arbitrary and a failure never stops the remaining writes. -/
theorem executor_results_index_aligned (tasks : List Task)
    (run : Task → TaskRunnerResult) (order : List (Fin tasks.length))
    (hcover : ∀ i : Fin tasks.length, i ∈ order) :
    (executeWithProgress tasks run order).length = tasks.length ∧
    ∀ i : Fin tasks.length,
      (executeWithProgress tasks run order)[i.val]? =
        some (some { task := tasks.get i, error := (run (tasks.get i)).error,
                     logDir := (run (tasks.get i)).logDir }) := by
  constructor
  · unfold executeWithProgress
    rw [foldl_set_preserves_length]
    exact List.length_replicate _ _
  · intro i
    unfold executeWithProgress
    exact foldl_set_covered (f := Fin.val)
      (g := fun i : Fin tasks.length =>
        (some { task := tasks.get i, error := (run (tasks.get i)).error,
                logDir := (run (tasks.get i)).logDir } : Option Result))
      (fun b c h => Fin.val_injective h) order _ i (hcover i)
      (by rw [List.length_replicate]; exact i.isLt)

/-- Witness for `executor_results_index_aligned`: one failing task, one
worker, still exactly one index-aligned result. -/
theorem executor_results_index_aligned_witness :
    (executeWithProgress [{ scenarioPath := "s.json", runID := "s_001", yaml := false }]
      (fun _ => { logDir := "logs", error := some "boom" })
      [⟨0, Nat.zero_lt_one⟩]).length = 1 :=
  (executor_results_index_aligned
    [{ scenarioPath := "s.json", runID := "s_001", yaml := false }]
    (fun _ => { logDir := "logs", error := some "boom" })
    [⟨0, Nat.zero_lt_one⟩] (by decide)).1

/-! ## C5: teardown and log collection after a successful deploy -/

/-- C5, counterexample to the claim as stated.  On the path where `Deploy`
succeeded but telemetry setup (`SetupTcpdump`) fails, the early `return`
runs only the defers registered so far: `Destroy` executes, but the
`collectLogs` defer was never registered, so log collection does *not*
execute — contradicting the claim's "including paths where telemetry setup
... fails". -/
theorem runner_teardown_counterexample :
    (runWithResult
        ⟨true, true, true, true, true, true, fun _ => false, none⟩
        "topo.yaml" ["r1"]).1 = [.deploySucceeded, .destroyCall] ∧
    (runWithResult
        ⟨true, true, true, true, true, true, fun _ => false, none⟩
        "topo.yaml" ["r1"]).1.count .destroyCall = 1 ∧
    (runWithResult
        ⟨true, true, true, true, true, true, fun _ => false, none⟩
        "topo.yaml" ["r1"]).1.count .collectLogsCall = 0 :=
  ⟨rfl, rfl, rfl⟩

/-- C5, amended: on every execution path of `RunWithResult` in which
`Deploy()` returned success **and telemetry setup succeeded on every host**,
both network teardown (`Destroy`) and log collection (`collectLogs`)
execute exactly once before the function returns, in particular on paths
where event execution fails; when telemetry setup fails after a successful
deploy, `Destroy` alone still executes exactly once. -/
theorem runner_teardown_amended (o : RunOracle) (topo : String) (hosts : List String)
    (htopo : topo ≠ "") (hl : o.loadOk = true) (hm : o.mkdirOk = true)
    (hc : o.createLogOk = true) (hv : o.validateOk = true) (hd : o.dockerOk = true)
    (hdep : o.deployOk = true) :
    ((∀ h ∈ hosts, o.tcpdumpOk h = true) →
      (runWithResult o topo hosts).1.count .destroyCall = 1 ∧
      (runWithResult o topo hosts).1.count .collectLogsCall = 1) ∧
    ((∃ h ∈ hosts, o.tcpdumpOk h = false) →
      (runWithResult o topo hosts).1.count .destroyCall = 1) := by
  constructor
  · intro ht
    have hfind : hosts.find? (fun h => !(o.tcpdumpOk h)) = none := by
      rw [List.find?_eq_none]
      intro x hx
      simp [ht x hx]
    unfold runWithResult
    simp only [hl, hm, hc, hv, hd, hdep, hfind, if_neg htopo]
    cases o.eventsErr <;> simp
  · intro hbad
    have hfind : ∃ h, hosts.find? (fun h => !(o.tcpdumpOk h)) = some h := by
      obtain ⟨h, hmem, hfalse⟩ := hbad
      have : (hosts.find? (fun h => !(o.tcpdumpOk h))).isSome := by
        rw [List.find?_isSome]
        exact ⟨h, hmem, by simp [hfalse]⟩
      exact Option.isSome_iff_exists.mp this
    obtain ⟨h, hfind⟩ := hfind
    unfold runWithResult
    simp only [hl, hm, hc, hv, hd, hdep, hfind, if_neg htopo]
    simp

/-- Witness for `runner_teardown_amended` with failing event execution:
teardown and log collection both still run exactly once. -/
theorem runner_teardown_amended_witness :
    (runWithResult
        ⟨true, true, true, true, true, true, fun _ => true, some "boom"⟩
        "topo.yaml" ["r1"]).1.count .destroyCall = 1 ∧
    (runWithResult
        ⟨true, true, true, true, true, true, fun _ => true, some "boom"⟩
        "topo.yaml" ["r1"]).1.count .collectLogsCall = 1 :=
  (runner_teardown_amended
      ⟨true, true, true, true, true, true, fun _ => true, some "boom"⟩
      "topo.yaml" ["r1"] (by decide) rfl rfl rfl rfl rfl rfl).1
    (by decide)

/-! ## C6: aggregation semantics of `executeEvents` -/

lemma parseBeginTimes_ok (parseDur : String → Option Nat) :
    ∀ (l : List String) (k : Nat), (∀ s ∈ l, beginTimeOf parseDur s ≠ none) →
      ∃ ds, parseBeginTimes parseDur l k = .ok ds
  | [], _, _ => ⟨[], rfl⟩
  | s :: rest, k, h => by
    unfold parseBeginTimes
    cases hbt : beginTimeOf parseDur s with
    | none => exact absurd hbt (h s (List.mem_cons_self _ _))
    | some d =>
      obtain ⟨ds, hds⟩ := parseBeginTimes_ok parseDur rest (k + 1)
        (fun x hx => h x (List.mem_cons_of_mem _ hx))
      rw [hds]
      exact ⟨d :: ds, rfl⟩

lemma lastErrorFold_aux (errOf : Nat → Option String) :
    ∀ (order : List Nat) (acc : Option String),
      order.foldl
        (fun lastError i =>
          match errOf i with
          | some e => some e
          | none => lastError) acc =
      match (order.filterMap errOf).getLast? with
      | some e => some e
      | none => acc
  | [], _ => rfl
  | i :: order, acc => by
    rw [List.foldl_cons]
    cases hi : errOf i with
    | none =>
      rw [lastErrorFold_aux errOf order acc]
      simp [List.filterMap_cons, hi]
    | some e =>
      rw [lastErrorFold_aux errOf order (some e)]
      simp only [List.filterMap_cons, hi, List.getLast?_cons]
      cases (order.filterMap errOf).getLast? <;> simp

lemma lastErrorFold_eq_getLast? (errOf : Nat → Option String) (order : List Nat) :
    lastErrorFold errOf order = (order.filterMap errOf).getLast? := by
  unfold lastErrorFold
  rw [lastErrorFold_aux errOf order none]
  cases (order.filterMap errOf).getLast? <;> rfl

/-- C6, counterexample to the claim as stated.  With a single event whose
begin-time string does not parse, `executeEvents` returns *before any event
runs*, with a parse error — so it returns a non-nil error although no event
returned an error, contradicting "returns nil when no event returned an
error" (the error oracle here never fails). -/
theorem executeEvents_counterexample :
    (executeEvents (fun _ => none) ["bogus"] (fun _ => none) []).1 = [] ∧
    (executeEvents (fun _ => none) ["bogus"] (fun _ => none) []).2 =
      some "invalid begin time for event 0" :=
  ⟨rfl, rfl⟩

/-- C6, amended: provided every event's begin-time string parses (otherwise
`executeEvents` returns a begin-time configuration error before launching
any event), the function returns only after observing the completion of
every event in the list (`order`, required to be a permutation of the event
indices), returns `nil` exactly when no event returned an error, and
otherwise returns the last error in observation order; one event's error
never removes other events from the observed set. -/
theorem executeEvents_last_error (parseDur : String → Option Nat)
    (eventBegins : List String) (errOf : Nat → Option String) (order : List Nat)
    (hperm : order.Perm (List.range eventBegins.length))
    (hok : ∀ s ∈ eventBegins, beginTimeOf parseDur s ≠ none) :
    (executeEvents parseDur eventBegins errOf order).1 = order ∧
    (∀ i < eventBegins.length, i ∈ (executeEvents parseDur eventBegins errOf order).1) ∧
    (executeEvents parseDur eventBegins errOf order).2 =
      (order.filterMap errOf).getLast? := by
  obtain ⟨ds, hds⟩ := parseBeginTimes_ok parseDur eventBegins 0 hok
  unfold executeEvents
  rw [hds]
  refine ⟨rfl, ?_, lastErrorFold_eq_getLast? errOf order⟩
  intro i hi
  exact hperm.mem_iff.mpr (List.mem_range.mpr hi)

/-- Witness for `executeEvents_last_error`: two events, the first fails,
completions observed in the order second-then-first; both events are
observed and the result is the failing event's error (the last one in
observation order). -/
theorem executeEvents_last_error_witness :
    (executeEvents (fun s => if s = "5s" then some 5 else none) ["", "5s"]
      (fun i => if i = 0 then some "boom" else none) [1, 0]).2 = some "boom" :=
  ((executeEvents_last_error (fun s => if s = "5s" then some 5 else none) ["", "5s"]
      (fun i => if i = 0 then some "boom" else none) [1, 0]
      (by decide) (by decide)).2.2).trans rfl

/-! ## C7: glob expansion of the plan entries -/

/-- C7: `ExpandScenarios` fails exactly when some entry's pattern contains
a glob metacharacter yet matches zero files; when no entry is offending,
an entry with no metacharacter and zero matches is kept as a literal path,
and every matched file of the other entries becomes one expanded entry
inheriting the original repeat count and format flag. -/
theorem expandScenarios_spec (glob : String → List String) (baseDir : String)
    (scenarios : List ScenarioEntry) :
    ((∃ err, expandScenarios glob baseDir scenarios = .error err) ↔
      ∃ e ∈ scenarios, offendingEntry glob baseDir e) ∧
    ((∀ e ∈ scenarios, ¬ offendingEntry glob baseDir e) →
      expandScenarios glob baseDir scenarios =
        .ok (scenarios.flatMap (expandedEntry glob baseDir))) := by
  induction scenarios with
  | nil =>
    refine ⟨⟨?_, ?_⟩, fun _ => rfl⟩
    · rintro ⟨err, herr⟩
      simp [expandScenarios] at herr
    · rintro ⟨e, he, -⟩
      exact absurd he (List.not_mem_nil e)
  | cons entry rest ih =>
    by_cases hms : glob (absPattern baseDir entry.pattern) = []
    · by_cases hglob : containsGlobChar entry.pattern = true
      · have hoff : offendingEntry glob baseDir entry := ⟨hglob, hms⟩
        have hres : expandScenarios glob baseDir (entry :: rest) =
            .error ("no files match pattern " ++ entry.pattern) := by
          simp [expandScenarios, hms, hglob]
        refine ⟨⟨fun _ => ⟨entry, List.mem_cons_self _ _, hoff⟩, fun _ => ⟨_, hres⟩⟩,
          fun hnone => absurd hoff (hnone entry (List.mem_cons_self _ _))⟩
      · have hglob' : containsGlobChar entry.pattern = false := by
          cases h : containsGlobChar entry.pattern
          · rfl
          · exact absurd h hglob
        refine ⟨⟨?_, ?_⟩, ?_⟩
        · rintro ⟨err, herr⟩
          rcases hrest : expandScenarios glob baseDir rest with e | tail
          · obtain ⟨e', he', hoff⟩ := ih.1.mp ⟨e, hrest⟩
            exact ⟨e', List.mem_cons_of_mem _ he', hoff⟩
          · exfalso
            simp [expandScenarios, hms, hglob', hrest] at herr
        · rintro ⟨e, he, hoff⟩
          rcases List.mem_cons.mp he with heq | hin
          · exact absurd hoff.1 (heq ▸ hglob)
          · obtain ⟨err, herr⟩ := ih.1.mpr ⟨e, hin, hoff⟩
            exact ⟨err, by simp [expandScenarios, hms, hglob', herr]⟩
        · intro hnone
          have htail := ih.2 (fun e he => hnone e (List.mem_cons_of_mem _ he))
          simp [expandScenarios, hms, hglob', htail, List.flatMap_cons, expandedEntry]
    · refine ⟨⟨?_, ?_⟩, ?_⟩
      · rintro ⟨err, herr⟩
        rcases hrest : expandScenarios glob baseDir rest with e | tail
        · obtain ⟨e', he', hoff⟩ := ih.1.mp ⟨e, hrest⟩
          exact ⟨e', List.mem_cons_of_mem _ he', hoff⟩
        · exfalso
          simp [expandScenarios, hms, hrest] at herr
      · rintro ⟨e, he, hoff⟩
        rcases List.mem_cons.mp he with heq | hin
        · exact absurd (heq ▸ hoff.2) hms
        · obtain ⟨err, herr⟩ := ih.1.mpr ⟨e, hin, hoff⟩
          exact ⟨err, by simp [expandScenarios, hms, herr]⟩
      · intro hnone
        have htail := ih.2 (fun e he => hnone e (List.mem_cons_of_mem _ he))
        simp [expandScenarios, hms, htail, List.flatMap_cons, expandedEntry]

/-- Witness for `expandScenarios_spec`: a glob entry with two matches and a
matchless literal entry expand to three entries, the glob matches
inheriting repeat count 2 and the YAML flag. -/
theorem expandScenarios_spec_witness :
    expandScenarios
      (fun p => if p = "/base/a*" then ["/base/a1.json", "/base/a2.json"] else [])
      "/base"
      [{ pattern := "a*", repeatCount := 2, yaml := true },
       { pattern := "lit.json", repeatCount := 1, yaml := false }] =
    .ok [{ pattern := "/base/a1.json", repeatCount := 2, yaml := true },
         { pattern := "/base/a2.json", repeatCount := 2, yaml := true },
         { pattern := "lit.json", repeatCount := 1, yaml := false }] :=
  ((expandScenarios_spec
      (fun p => if p = "/base/a*" then ["/base/a1.json", "/base/a2.json"] else [])
      "/base"
      [{ pattern := "a*", repeatCount := 2, yaml := true },
       { pattern := "lit.json", repeatCount := 1, yaml := false }]).2
    (by
      intro e he hoff
      rcases List.mem_cons.mp he with h | h
      · exact absurd (h ▸ hoff).2 (by decide)
      · rcases List.mem_cons.mp h with h2 | h2
        · exact absurd (h2 ▸ hoff).1 (by decide)
        · exact absurd h2 (List.not_mem_nil e))).trans rfl

/-! ## C9: at most one deploy-or-destroy external call in flight -/

lemma lockInit_inv (s : LockSys) (h : LockInit s) : LockInv s := by
  obtain ⟨-, hth⟩ := h
  intro i hi
  have hilen : i < s.threads.length := (List.getElem?_eq_some.mp hi).1
  have hmem : s.threads[i] ∈ s.threads := List.getElem_mem hilen
  have hval : s.threads[i] = TrialThread.netOp .inCall := by
    have := (List.getElem?_eq_some.mp hi).2
    exact this
  rcases hth _ hmem with h' | h' <;> rw [hval] at h' <;> simp at h'

lemma lockStep_inv (s s' : LockSys) (hinv : LockInv s) (hstep : LockStep s s') :
    LockInv s' := by
  cases hstep with
  | allocFail i hi =>
    intro j hj
    have hilen : i < s.threads.length := (List.getElem?_eq_some.mp hi).1
    by_cases hij : i = j
    · subst hij
      rw [List.getElem?_set_self hilen] at hj
      simp at hj
    · rw [List.getElem?_set_ne hij] at hj
      exact hinv j hj
  | allocOk i hi =>
    intro j hj
    have hilen : i < s.threads.length := (List.getElem?_eq_some.mp hi).1
    by_cases hij : i = j
    · subst hij
      rw [List.getElem?_set_self hilen] at hj
      simp at hj
    · rw [List.getElem?_set_ne hij] at hj
      exact hinv j hj
  | acquire i hi hlock =>
    intro j hj
    by_cases hij : i = j
    · subst hij
      rfl
    · rw [List.getElem?_set_ne hij] at hj
      have := hinv j hj
      rw [hlock] at this
      exact absurd this (by simp)
  | release i hi hlock =>
    intro j hj
    have hilen : i < s.threads.length := (List.getElem?_eq_some.mp hi).1
    by_cases hij : i = j
    · subst hij
      rw [List.getElem?_set_self hilen] at hj
      simp at hj
    · rw [List.getElem?_set_ne hij] at hj
      have := hinv j hj
      rw [hlock] at this
      exact absurd (Option.some_injective _ this) hij
  | workStep i hi =>
    intro j hj
    have hilen : i < s.threads.length := (List.getElem?_eq_some.mp hi).1
    by_cases hij : i = j
    · subst hij
      rw [List.getElem?_set_self hilen] at hj
      simp at hj
    · rw [List.getElem?_set_ne hij] at hj
      exact hinv j hj

lemma lockReachable_inv (s₀ s : LockSys) (h0 : LockInit s₀)
    (hr : LockReachable s₀ s) : LockInv s := by
  induction hr with
  | refl => exact lockInit_inv s₀ h0
  | tail hsteps hstep ih => exact lockStep_inv _ _ ih hstep

/-- C9: in every state reachable from an initial state by any interleaving
of any number of deploy/destroy invocations and lock-free trial work, at
most one thread is inside the external containerlab call (so the external
calls are totally ordered in time and never overlap), and every lock-free
activity (event execution, telemetry, log collection) can always step
without consulting or changing `networkOpMu`. -/
theorem deploy_destroy_serialized (s₀ s : LockSys)
    (h0 : LockInit s₀) (hr : LockReachable s₀ s) :
    (∀ i j : Nat, s.threads[i]? = some (.netOp .inCall) →
      s.threads[j]? = some (.netOp .inCall) → i = j) ∧
    (∀ i : Nat, s.threads[i]? = some (.work false) →
      ∃ s', LockStep s s' ∧ s'.lockHeld = s.lockHeld) := by
  have hinv := lockReachable_inv s₀ s h0 hr
  refine ⟨fun i j hi hj => ?_, fun i hi => ⟨_, LockStep.workStep s i hi, rfl⟩⟩
  have h1 := hinv i hi
  have h2 := hinv j hj
  rw [h1] at h2
  exact Option.some_injective _ h2

/-- Witness for `deploy_destroy_serialized` at a concrete reachable state:
one deploy thread has generated its subnets, acquired `networkOpMu` and is
inside the external call, while the trial's lock-free work can still step
without touching the mutex. -/
theorem deploy_destroy_serialized_witness :
    ∃ s', LockStep { lockHeld := some 0,
                     threads := [.netOp .inCall, .work false] } s' ∧
      s'.lockHeld = ({ lockHeld := some 0,
                       threads := [.netOp .inCall, .work false] } : LockSys).lockHeld :=
  (deploy_destroy_serialized
    { lockHeld := none, threads := [.netOp .start, .work false] }
    { lockHeld := some 0, threads := [.netOp .inCall, .work false] }
    ⟨rfl, by decide⟩
    (Relation.ReflTransGen.tail
      (Relation.ReflTransGen.single
        (LockStep.allocOk { lockHeld := none, threads := [.netOp .start, .work false] } 0 rfl))
      (LockStep.acquire { lockHeld := none, threads := [.netOp .ready, .work false] } 0 rfl rfl))).2
    1 rfl

/-! ## C10: shell and copy events never report failure -/

lemma length_filterMap_of_all_some {α β : Type} (f : α → Option β) :
    ∀ l : List α, (∀ x ∈ l, (f x).isSome) → (l.filterMap f).length = l.length
  | [], _ => rfl
  | x :: l, h => by
    rw [List.filterMap_cons]
    cases hfx : f x with
    | none =>
      exact absurd (h x (List.mem_cons_self _ _)) (by rw [hfx]; simp)
    | some b =>
      simp [length_filterMap_of_all_some f l
        (fun y hy => h y (List.mem_cons_of_mem _ hy))]

lemma length_flatMap_const {α β : Type} (f : α → List β) (k : Nat) :
    ∀ l : List α, (∀ x ∈ l, (f x).length = k) → (l.flatMap f).length = l.length * k
  | [], _ => by simp
  | x :: l, h => by
    rw [List.flatMap_cons, List.length_append, h x (List.mem_cons_self _ _),
      length_flatMap_const f k l (fun y hy => h y (List.mem_cons_of_mem _ hy)),
      List.length_cons]
    ring

/-- C10: for every shell event and every copy event, and for arbitrary
outcomes of the underlying command runner and `mkdir` oracles, `execShell`
and `execCopy` return `nil`; per-command and per-file failures surface only
as warnings.  Moreover even when *every* command invocation fails,
`execShell` still attempts all `hosts × commands` invocations (one warning
each) rather than aborting. -/
theorem shell_copy_events_never_fail (labName host : String) (hosts : List String)
    (shellPath : String) (shellCommands : List String)
    (toContainer fromContainer : List FileCopy)
    (run : String → List String → Except String String)
    (mkdirAll : String → Except String Unit) :
    (execShell labName host hosts shellPath shellCommands run).2 = none ∧
    (execCopy labName host hosts toContainer fromContainer run mkdirAll).2 = none ∧
    ((∀ name args, ∃ e, run name args = .error e) →
      (execShell labName host hosts shellPath shellCommands run).1.length =
        (getHosts host hosts).length * shellCommands.length) := by
  refine ⟨rfl, rfl, fun hfail => ?_⟩
  unfold execShell
  refine length_flatMap_const _ _ _ (fun h hh => ?_)
  refine length_filterMap_of_all_some _ _ (fun cmd hcmd => ?_)
  obtain ⟨e, he⟩ := hfail "sh" ["-c",
    "docker exec " ++ clabHostName labName h ++ " " ++
      (if shellPath = "" then "/bin/sh" else shellPath) ++ " -c " ++ squoteStr ++
      String.mk (escapeQuotes cmd.data) ++ squoteStr]
  simp [he]

/-- Witness for `shell_copy_events_never_fail` with a runner that fails
every invocation: the one host × one command matrix is still fully
attempted, producing one warning. -/
theorem shell_copy_events_never_fail_witness :
    (execShell "lab_001" "r1" [] "" ["echo hi"]
        (fun _ _ => .error "exec failed")).1.length =
      (getHosts "r1" []).length * (["echo hi"] : List String).length :=
  (shell_copy_events_never_fail "lab_001" "r1" [] "" ["echo hi"] [] []
    (fun _ _ => .error "exec failed") (fun _ => .ok ())).2.2
    (fun _ _ => ⟨"exec failed", rfl⟩)

end Netroub
